import Mathlib

/-!
Verification of the FinTalk audio pipeline (`pages/audio_utils.py`).

Shallow embedding conventions:
* Byte strings are `List ℕ` (each entry a byte value).
* Python `None` / exceptions escaping a helper are `Option`/`Except`.
* Python floating point time arithmetic is idealized as exact `ℚ`
  arithmetic; `int(x)` on a nonnegative value is `Int.toNat ⌊x⌋`.
* External collaborators (the `soundfile` library, the transcription API,
  the filesystem) are oracle parameters; the filesystem effects the claims
  talk about (transcription calls, chunk-file deletions) are returned as
  explicit traces.
-/

namespace FinTalk

/-- Little-endian byte encoding, embedding Python's
`v.to_bytes(w, 'little')` for `v < 256 ^ w`. -/
def toBytesLE (v w : ℕ) : List ℕ :=
  (List.range w).map (fun i => v / 256 ^ i % 256)

/-- Little-endian byte decoding (used only to state header-field claims). -/
def fromBytesLE (bs : List ℕ) : ℕ :=
  bs.foldr (fun b acc => b + 256 * acc) 0

/-- Embedding of `create_basic_wav` (`audio_utils.py` lines 143-183).
The function builds a fixed 44-byte RIFF/WAVE header for sample rate
44100, 1 channel, 16 bits per sample and returns header ++ data.
`none` models the `except` branch: `int.to_bytes(4, 'little')` raises
`OverflowError` when `36 + len(audio_data)` does not fit in 4 bytes,
and the function then returns `None`. -/
def create_basic_wav (audio_data : List ℕ) : Option (List ℕ) :=
  let data_length := audio_data.length
  if 36 + data_length < 2 ^ 32 then
    some ([82, 73, 70, 70] ++ toBytesLE (36 + data_length) 4 ++
      [87, 65, 86, 69] ++ [102, 109, 116, 32] ++ toBytesLE 16 4 ++
      toBytesLE 1 2 ++ toBytesLE 1 2 ++ toBytesLE 44100 4 ++
      toBytesLE (44100 * 1 * 16 / 8) 4 ++ toBytesLE (1 * 16 / 8) 2 ++
      toBytesLE 16 2 ++ [100, 97, 116, 97] ++ toBytesLE data_length 4 ++
      audio_data)
  else none

/-- Python truthiness of an optional byte string: `None` and `b''` are
falsy, everything else truthy (`if not wav_data:` in the source). -/
def pyTruthy (o : Option (List ℕ)) : Bool :=
  match o with
  | none => false
  | some l => !l.isEmpty

/-- Embedding of `_check_existing_wav_format` (lines 110-118): return the
input unchanged when it starts with `RIFF` and has `WAVE` at offsets 8-11,
else `None`.  (Python slicing never raises here, so the `except` branch is
dead.) -/
def _check_existing_wav_format (audio_bytes : List ℕ) : Option (List ℕ) :=
  if audio_bytes.take 4 = [82, 73, 70, 70] ∧
      (audio_bytes.drop 8).take 4 = [87, 65, 86, 69] then
    some audio_bytes
  else none

/-- Embedding of `_create_basic_wav_fallback` (lines 121-131): inputs of
at most 1000 bytes are rejected, otherwise `create_basic_wav` runs (its
exceptions are caught and become `None`, which the `Option` result of
`create_basic_wav` already models). -/
def _create_basic_wav_fallback (audio_data : List ℕ) : Option (List ℕ) :=
  if audio_data.length ≤ 1000 then none
  else create_basic_wav audio_data

/-- Embedding of `convert_webm_to_wav` (lines 35-86).  The `soundfile`
decode attempt `_try_soundfile_conversion` is an oracle `sfDecode`
(returning `none` when the library is unavailable or its decode fails).
The strategy chain uses Python truthiness: a falsy result falls through
to the next strategy, and a falsy final result becomes `None`. -/
def convert_webm_to_wav (sfDecode : List ℕ → Option (List ℕ))
    (audio_bytes : List ℕ) : Option (List ℕ) :=
  if audio_bytes.length = 0 then none
  else if audio_bytes.length < 100 then none
  else
    let w1 := sfDecode audio_bytes
    let w2 := if pyTruthy w1 then w1 else _check_existing_wav_format audio_bytes
    let w3 := if pyTruthy w2 then w2 else _create_basic_wav_fallback audio_bytes
    if pyTruthy w3 then w3 else none

/-- Decode a byte string as signed 16-bit little-endian samples, the
embedding of `np.frombuffer(audio_bytes, dtype=np.int16)` on an
even-length buffer. -/
def toInt16 : List ℕ → List ℤ
  | lo :: hi :: rest =>
      (let v := lo + 256 * hi
       if v < 32768 then (v : ℤ) else (v : ℤ) - 65536) :: toInt16 rest
  | _ => []

/-- Mean square of the samples normalized by 32768 (the square of the RMS
the source computes).  `meanSq b = (Σ (s/32768)²) / n` over the decoded
samples. -/
def meanSq (audio_bytes : List ℕ) : ℚ :=
  let samples := toInt16 audio_bytes
  ((samples.map (fun s : ℤ => ((s : ℚ) / 32768) ^ 2)).sum) / samples.length

/-- Embedding of `_detect_silence_fallback` (lines 224-237).  `none`
models the `ValueError` that `np.frombuffer` raises on a buffer whose
length is not a multiple of 2; the error propagates to the caller.
The source computes `rms = sqrt(meanSq)` and returns `rms < threshold`;
over `ℚ` we encode that comparison by the equivalent
`0 < threshold ∧ meanSq < threshold ^ 2` (for `m ≥ 0`,
`sqrt m < t ↔ 0 < t ∧ m < t ^ 2`), which keeps the definition
executable; the equivalence with the real `sqrt` form is proved in the
silence theorem. -/
def _detect_silence_fallback (audio_bytes : List ℕ) (threshold : ℚ) :
    Option Bool :=
  if audio_bytes.length < 1000 then some true
  else if audio_bytes.length % 2 ≠ 0 then none
  else if (toInt16 audio_bytes).length = 0 then some true
  else some (decide (0 < threshold ∧ meanSq audio_bytes < threshold ^ 2))

/-- Embedding of `detect_silence` (lines 186-206).  `sfPath` is the
soundfile-based path as an oracle (`none` = library unavailable, so the
fallback runs; `some f` = library available, `f` may raise).  The
top-level `except Exception` turns any raised error into `False`,
so the result is always `Except.ok`. -/
def detect_silence (sfPath : Option (List ℕ → ℚ → Except Unit Bool))
    (audio_bytes : List ℕ) (threshold : ℚ) : Except Unit Bool :=
  let body : Except Unit Bool :=
    match sfPath with
    | some f => f audio_bytes threshold
    | none =>
        match _detect_silence_fallback audio_bytes threshold with
        | some b => Except.ok b
        | none => Except.error ()
  match body with
  | Except.ok b => Except.ok b
  | Except.error _ => Except.ok false

/-! ### The chunker (`split_audio`, `_create_audio_chunk`) -/

/-- Format metadata of the parent wave file (`wave.Wave_read`). -/
structure WaveParams where
  nchannels : ℕ
  sampwidth : ℕ
  framerate : ℕ
  nframes : ℕ
deriving Repr, DecidableEq

/-- One produced chunk file: the metadata written into `chunk_{index}.wav`
and the frame range `[startFrame, endFrame)` of the parent it carries. -/
structure Chunk where
  nchannels : ℕ
  sampwidth : ℕ
  framerate : ℕ
  startFrame : ℕ
  endFrame : ℕ
  index : ℕ
deriving Repr, DecidableEq

/-- Embedding of `_create_audio_chunk` (lines 281-303): frame indices are
`int(time * frame_rate)` (truncation; times are nonnegative so this is
the floor), and the chunk inherits the parent's channel count, sample
width and frame rate. -/
def _create_audio_chunk (p : WaveParams) (start_time end_time : ℚ)
    (index : ℕ) : Chunk :=
  { nchannels := p.nchannels
    sampwidth := p.sampwidth
    framerate := p.framerate
    startFrame := (⌊start_time * (p.framerate : ℚ)⌋).toNat
    endFrame := (⌊end_time * (p.framerate : ℚ)⌋).toNat
    index := index }

/-- The `while start_time < total_duration` loop of `split_audio`
(lines 259-272): `start_time` is an integer multiple of `chunk_length`,
`end_time = min(start_time + chunk_length, total_duration)`, and the loop
advances by the fixed stride `chunk_length`. -/
def split_audio_loop (p : WaveParams) (chunk_length : ℕ)
    (hr : 0 < p.framerate) (hc : 0 < chunk_length) (s i : ℕ) : List Chunk :=
  if h : (s : ℚ) < (p.nframes : ℚ) / (p.framerate : ℚ) then
    _create_audio_chunk p (s : ℚ)
        (min ((s : ℚ) + (chunk_length : ℚ))
          ((p.nframes : ℚ) / (p.framerate : ℚ))) i ::
      split_audio_loop p chunk_length hr hc (s + chunk_length) (i + 1)
  else []
termination_by p.nframes - s * p.framerate
decreasing_by
  have h1 : s * p.framerate < p.nframes := by
    rw [lt_div_iff (by exact_mod_cast hr : (0 : ℚ) < p.framerate)] at h
    exact_mod_cast h
  have h2 : s * p.framerate < (s + chunk_length) * p.framerate := by
    have : 0 < chunk_length * p.framerate := Nat.mul_pos hc hr
    calc s * p.framerate < s * p.framerate + chunk_length * p.framerate := by omega
    _ = (s + chunk_length) * p.framerate := by ring
  exact Nat.sub_lt_sub_left h1 h2

/-- Embedding of `split_audio` (lines 240-278).  A zero frame rate makes
the Python source raise `ZeroDivisionError` computing `total_duration`,
which the surrounding `except` turns into the empty chunk list; a zero
`chunk_length` would make the source loop forever, so the embedding is
only meaningful on positive chunk lengths (the orchestrator always
passes the default 30) and returns `[]` outside that domain. -/
def split_audio (p : WaveParams) (chunk_length : ℕ) : List Chunk :=
  if h : 0 < p.framerate ∧ 0 < chunk_length then
    split_audio_loop p chunk_length h.1 h.2 0 1
  else []

/-! ### The transcription orchestrator (`process_long_audio`) -/

/-- Python's whitespace test for `str.strip()` (the ASCII whitespace
characters; transcripts here contain no exotic unicode whitespace). -/
def isWS (c : Char) : Bool :=
  c = ' ' ∨ c = '\t' ∨ c = '\n' ∨ c = '\r' ∨ c = '\x0b' ∨ c = '\x0c'

/-- Embedding of Python `s.strip()`: remove leading and trailing
whitespace. -/
def pystrip (s : List Char) : List Char :=
  ((s.dropWhile isWS).reverse.dropWhile isWS).reverse

/-- Embedding of Python `s.rstrip()` (trailing whitespace only) — used to
state the spec's "trailing whitespace trimmed" reading. -/
def pyrstrip (s : List Char) : List Char :=
  (s.reverse.dropWhile isWS).reverse

/-- Inputs of one `process_long_audio` run, with the external
collaborators as oracles: whether the input path exists and its size
(`os.path.exists` / `os.path.getsize`), the chunk list `split_audio`
returns for it, and the transcription call `audio_to_text`
(`Except.error` models the call raising an exception). -/
structure OrchInput where
  inputFile : String
  fileExists : Bool
  fileSize : ℕ
  chunks : List String
  att : String → Except Unit (List Char)

/-- Observable outcome of one `process_long_audio` run: the returned
transcript, the files passed to `audio_to_text` in call order, how many
times `split_audio` was invoked, and the chunk files deleted by
`_cleanup_temp_file`, in deletion order. -/
structure OrchResult where
  transcript : List Char
  attCalls : List String
  splitCalls : ℕ
  cleaned : List String
deriving Repr, DecidableEq

/-- The `for chunk in chunks` loop of `process_long_audio`
(lines 396-402): transcribe the chunk, append `transcript + " "` when the
result is truthy (non-empty), then delete the chunk file.  Returns the
accumulator (or the first raised exception, which aborts the loop before
that chunk's cleanup), the transcription calls made and the files
cleaned. -/
def chunkLoop (att : String → Except Unit (List Char)) :
    List String → Except Unit (List Char) × List String × List String
  | [] => (Except.ok [], [], [])
  | c :: rest =>
      match att c with
      | Except.error e => (Except.error e, [c], [])
      | Except.ok t =>
          let r := chunkLoop att rest
          (match r.1 with
           | Except.error e => Except.error e
           | Except.ok acc =>
               Except.ok ((if t.isEmpty then [] else t ++ [' ']) ++ acc),
           c :: r.2.1, c :: r.2.2)

/-- The body of `process_long_audio` (lines 381-404), before the
top-level exception handler: validate the file, split, and either
transcribe the whole file (zero chunks) or run the chunk loop; the
returned string is `strip()`ped.  The first component is the result or
the exception escaping the body; the traces record what happened up to
that point. -/
def process_body (inp : OrchInput) :
    Except Unit (List Char) × List String × ℕ × List String :=
  if ¬inp.fileExists ∨ inp.fileSize = 0 then (Except.ok [], [], 0, [])
  else if inp.chunks.isEmpty then
    match inp.att inp.inputFile with
    | Except.error e => (Except.error e, [inp.inputFile], 1, [])
    | Except.ok t => (Except.ok (pystrip t), [inp.inputFile], 1, [])
  else
    match chunkLoop inp.att inp.chunks with
    | (Except.error e, calls, cleaned) => (Except.error e, calls, 1, cleaned)
    | (Except.ok acc, calls, cleaned) =>
        (Except.ok (pystrip acc), calls, 1, cleaned)

/-- Embedding of `process_long_audio` (lines 371-409): the body wrapped
in `except Exception: return ""`.  (In the zero-chunk branch the source
returns `transcript.strip() if transcript else ""`; for a falsy, i.e.
empty, transcript both arms give the empty string, so `pystrip` covers
both.) -/
def process_long_audio (inp : OrchInput) : OrchResult :=
  match process_body inp with
  | (Except.ok t, calls, sc, cleaned) =>
      { transcript := t, attCalls := calls, splitCalls := sc, cleaned := cleaned }
  | (Except.error _, calls, sc, cleaned) =>
      { transcript := [], attCalls := calls, splitCalls := sc, cleaned := cleaned }

/-! ### Concrete inputs used by witnesses and counterexamples -/

/-- A decode oracle modelling an available `soundfile` whose re-encode of
the input differs from the input bytes (e.g. it rewrites the header or
re-quantizes samples). -/
def sfDecodeAlt : List ℕ → Option (List ℕ) :=
  fun _ => some [0]

/-- The decode oracle of an unavailable (or always-failing) `soundfile`. -/
def sfNone : List ℕ → Option (List ℕ) :=
  fun _ => none

/-- A 100-byte input carrying the RIFF/WAVE magic at offsets 0 and 8. -/
def wavMagicInput : List ℕ :=
  [82, 73, 70, 70, 0, 0, 0, 0, 87, 65, 86, 69] ++ List.replicate 88 0

/-- Orchestrator input whose single chunk transcribes to `" a"`
(a transcript with leading whitespace). -/
def inpLeadingWS : OrchInput :=
  { inputFile := "audio.wav", fileExists := true, fileSize := 4
    chunks := ["chunk_1.wav"]
    att := fun _ => Except.ok [' ', 'a'] }

/-- Orchestrator input on which the transcription call raises. -/
def inpRaise : OrchInput :=
  { inputFile := "audio.wav", fileExists := true, fileSize := 4
    chunks := ["chunk_1.wav"]
    att := fun _ => Except.error () }

/-- Orchestrator input with zero chunks whose whole-file transcription
returns `" a "` (padded with whitespace on both sides). -/
def inpWhole : OrchInput :=
  { inputFile := "audio.wav", fileExists := true, fileSize := 4
    chunks := []
    att := fun _ => Except.ok [' ', 'a', ' '] }

/-- Orchestrator input naming a zero-length file. -/
def inpEmptyFile : OrchInput :=
  { inputFile := "audio.wav", fileExists := true, fileSize := 0
    chunks := ["chunk_1.wav"]
    att := fun _ => Except.ok ['a'] }

/-- Concrete per-chunk transcripts: the first chunk hears `"hi"`, the
second nothing. -/
def fEx : String → List Char :=
  fun c => if c = "chunk_1.wav" then ['h', 'i'] else []

/-- Orchestrator input with two chunks and the transcripts of `fEx`. -/
def inpTwoChunks : OrchInput :=
  { inputFile := "audio.wav", fileExists := true, fileSize := 4
    chunks := ["chunk_1.wav", "chunk_2.wav"]
    att := fun c => Except.ok (fEx c) }

/-- A 65-second parent wave file: 2 channels, 2-byte samples, frame rate
8000, 520000 frames. -/
def pEx : WaveParams :=
  { nchannels := 2, sampwidth := 2, framerate := 8000, nframes := 520000 }

/-! ## Helper lemmas -/

theorem length_toBytesLE (v w : ℕ) : (toBytesLE v w).length = w := by
  simp [toBytesLE]

theorem toBytesLE_two (v : ℕ) :
    toBytesLE v 2 = [v % 256, v / 256 % 256] := by
  simp [toBytesLE, List.range_succ]

theorem toBytesLE_four (v : ℕ) :
    toBytesLE v 4 =
      [v % 256, v / 256 % 256, v / 256 ^ 2 % 256, v / 256 ^ 3 % 256] := by
  simp [toBytesLE, List.range_succ]

theorem fromBytesLE_four (a b c d : ℕ) :
    fromBytesLE [a, b, c, d] = a + 256 * (b + 256 * (c + 256 * d)) := by
  simp [fromBytesLE]

theorem fromBytesLE_two (a b : ℕ) :
    fromBytesLE [a, b] = a + 256 * b := by
  simp [fromBytesLE]

theorem fromBytesLE_toBytesLE_four (v : ℕ) (h : v < 2 ^ 32) :
    fromBytesLE (toBytesLE v 4) = v := by
  rw [toBytesLE_four, fromBytesLE_four]
  omega

theorem fromBytesLE_toBytesLE_two (v : ℕ) (h : v < 2 ^ 16) :
    fromBytesLE (toBytesLE v 2) = v := by
  rw [toBytesLE_two, fromBytesLE_two]
  omega

theorem create_basic_wav_some (data : List ℕ)
    (h : 36 + data.length < 2 ^ 32) :
    ∃ out, create_basic_wav data = some out ∧
      out.length = 44 + data.length ∧ out.isEmpty = false := by
  have e : create_basic_wav data = some
      ([82, 73, 70, 70] ++ toBytesLE (36 + data.length) 4 ++
        [87, 65, 86, 69] ++ [102, 109, 116, 32] ++ toBytesLE 16 4 ++
        toBytesLE 1 2 ++ toBytesLE 1 2 ++ toBytesLE 44100 4 ++
        toBytesLE (44100 * 1 * 16 / 8) 4 ++ toBytesLE (1 * 16 / 8) 2 ++
        toBytesLE 16 2 ++ [100, 97, 116, 97] ++ toBytesLE data.length 4 ++
        data) := by
    simp [create_basic_wav, h]
    omega
  refine ⟨_, e, ?_, ?_⟩
  · simp [length_toBytesLE]
    omega
  · simp

/-! ## C2 — the WAV fallback builder -/

/-- C2 (counterexample): the claim says the builder "produces exactly 44
bytes of output", but `create_basic_wav` returns the 44-byte header with
the payload appended: on a 1-byte input the output has 45 bytes. -/
theorem C2_counterexample :
    (create_basic_wav [0]).map List.length = some 45 ∧ (45 : ℕ) ≠ 44 := by
  constructor
  · decide
  · decide

/-- C2 (amended): for every `dataLength` with `36 + dataLength < 2 ^ 32`
(beyond which the 4-byte size fields overflow and the builder returns
`None`), `create_basic_wav` produces `44 + dataLength` bytes — a 44-byte
header followed by the payload — whose declared RIFF chunk size field
(offset 4) equals `36 + dataLength`, whose data sub-chunk size field
(offset 40) equals `dataLength`, whose byte-rate field (offset 28) equals
`sampleRate * channels * bitsPerSample / 8`, and whose block-align field
(offset 32) equals `channels * bitsPerSample / 8`, all multi-byte
integers little-endian. -/
theorem C2_wav_builder_fields (data : List ℕ)
    (h : 36 + data.length < 2 ^ 32) :
    ∃ out, create_basic_wav data = some out ∧
      out.length = 44 + data.length ∧
      out.take 4 = [82, 73, 70, 70] ∧
      (out.drop 8).take 4 = [87, 65, 86, 69] ∧
      fromBytesLE ((out.drop 4).take 4) = 36 + data.length ∧
      fromBytesLE ((out.drop 24).take 4) = 44100 ∧
      fromBytesLE ((out.drop 28).take 4) = 44100 * 1 * 16 / 8 ∧
      fromBytesLE ((out.drop 32).take 2) = 1 * 16 / 8 ∧
      fromBytesLE ((out.drop 40).take 4) = data.length ∧
      out.drop 44 = data := by
  have e : create_basic_wav data = some
      ([82, 73, 70, 70] ++ toBytesLE (36 + data.length) 4 ++
        [87, 65, 86, 69] ++ [102, 109, 116, 32] ++ toBytesLE 16 4 ++
        toBytesLE 1 2 ++ toBytesLE 1 2 ++ toBytesLE 44100 4 ++
        toBytesLE (44100 * 1 * 16 / 8) 4 ++ toBytesLE (1 * 16 / 8) 2 ++
        toBytesLE 16 2 ++ [100, 97, 116, 97] ++ toBytesLE data.length 4 ++
        data) := by
    simp [create_basic_wav, h]
    omega
  refine ⟨_, e, ?_, ?_, ?_, ?_, ?_, ?_, ?_, ?_, ?_⟩ <;>
    simp [toBytesLE_four, toBytesLE_two, fromBytesLE_four, fromBytesLE_two] <;>
    omega

/-- C2 (witness): the amended theorem at a concrete 3-byte payload. -/
theorem C2_witness :
    36 + ([5, 6, 7] : List ℕ).length < 2 ^ 32 ∧
      ∃ out, create_basic_wav [5, 6, 7] = some out ∧
        out.length = 44 + ([5, 6, 7] : List ℕ).length ∧
        out.take 4 = [82, 73, 70, 70] ∧
        (out.drop 8).take 4 = [87, 65, 86, 69] ∧
        fromBytesLE ((out.drop 4).take 4) = 36 + ([5, 6, 7] : List ℕ).length ∧
        fromBytesLE ((out.drop 24).take 4) = 44100 ∧
        fromBytesLE ((out.drop 28).take 4) = 44100 * 1 * 16 / 8 ∧
        fromBytesLE ((out.drop 32).take 2) = 1 * 16 / 8 ∧
        fromBytesLE ((out.drop 40).take 4) = ([5, 6, 7] : List ℕ).length ∧
        out.drop 44 = [5, 6, 7] :=
  ⟨by decide, C2_wav_builder_fields [5, 6, 7] (by decide)⟩

/-! ## C3 — passthrough of already-canonical input -/

/-- C3 (counterexample): the claim says every RIFF/WAVE-tagged input is
returned byte-identical, but `convert_webm_to_wav` tries the library
decode *first*: with a `soundfile` whose re-encode differs from the
input, a magic-tagged 100-byte input is not returned unchanged. -/
theorem C3_counterexample :
    wavMagicInput.take 4 = [82, 73, 70, 70] ∧
      (wavMagicInput.drop 8).take 4 = [87, 65, 86, 69] ∧
      100 ≤ wavMagicInput.length ∧
      convert_webm_to_wav sfDecodeAlt wavMagicInput = some [0] ∧
      some [0] ≠ some wavMagicInput := by
  refine ⟨by decide, by decide, by decide, ?_, by decide⟩
  decide

/-- C3 (amended): whenever the library-decode stage yields nothing
truthy (the library is unavailable, fails, or returns empty bytes), an
input of valid size (`≥ 100` bytes) whose first four bytes are `RIFF`
and whose bytes 8..11 are `WAVE` is returned unchanged, byte-identical:
the passthrough strategy is chosen rather than fallback synthesis. -/
theorem C3_passthrough_identity (sfDecode : List ℕ → Option (List ℕ))
    (b : List ℕ) (hlen : 100 ≤ b.length)
    (hsf : pyTruthy (sfDecode b) = false)
    (h1 : b.take 4 = [82, 73, 70, 70])
    (h2 : (b.drop 8).take 4 = [87, 65, 86, 69]) :
    convert_webm_to_wav sfDecode b = some b := by
  have hne : ¬b.length = 0 := by omega
  have h100 : ¬b.length < 100 := by omega
  have hb : b.isEmpty = false := by
    cases b with
    | nil => simp at hlen
    | cons x xs => rfl
  simp only [convert_webm_to_wav]
  rw [if_neg hne, if_neg h100, hsf]
  simp [_check_existing_wav_format, h1, h2, pyTruthy, hb]

/-- C3 (witness): the amended theorem at the concrete magic-tagged input
with the decoder unavailable. -/
theorem C3_witness :
    100 ≤ wavMagicInput.length ∧
      pyTruthy (sfNone wavMagicInput) = false ∧
      wavMagicInput.take 4 = [82, 73, 70, 70] ∧
      (wavMagicInput.drop 8).take 4 = [87, 65, 86, 69] ∧
      convert_webm_to_wav sfNone wavMagicInput = some wavMagicInput :=
  ⟨by decide, by decide, by decide, by decide,
    C3_passthrough_identity sfNone wavMagicInput (by decide) (by decide)
      (by decide) (by decide)⟩

/-! ## C10 — acceptance boundary of the no-decoder path -/

/-- C10: with the decode library unavailable and no RIFF/WAVE magic,
inputs shorter than 100 bytes are rejected up front (for any decode
oracle), every input of length at most 1000 produces no output, and
every longer input (whose size fields do not overflow the 4-byte header
encoding) is accepted by the fallback synthesis — so the acceptance
boundary is exactly 1001 bytes. -/
theorem C10_acceptance_boundary (b : List ℕ)
    (hmagic : ¬(b.take 4 = [82, 73, 70, 70] ∧
      (b.drop 8).take 4 = [87, 65, 86, 69])) :
    (∀ sfDecode, b.length < 100 → convert_webm_to_wav sfDecode b = none) ∧
      (b.length ≤ 1000 → convert_webm_to_wav sfNone b = none) ∧
      (1000 < b.length → 36 + b.length < 2 ^ 32 →
        ∃ out, convert_webm_to_wav sfNone b = some out) := by
  refine ⟨?_, ?_, ?_⟩
  · intro sfDecode hlt
    by_cases h0 : b.length = 0
    · simp [convert_webm_to_wav, h0]
    · simp [convert_webm_to_wav, h0, hlt]
  · intro hle
    by_cases h0 : b.length = 0
    · simp [convert_webm_to_wav, h0]
    · by_cases hlt : b.length < 100
      · simp [convert_webm_to_wav, h0, hlt]
      · simp [convert_webm_to_wav, h0, hlt, sfNone, pyTruthy,
          _check_existing_wav_format, hmagic, _create_basic_wav_fallback, hle]
  · intro hgt hov
    obtain ⟨out, ho, hlen44, hne⟩ := create_basic_wav_some b hov
    refine ⟨out, ?_⟩
    simp [convert_webm_to_wav, (show ¬b.length = 0 by omega),
      (show ¬b.length < 100 by omega), sfNone, pyTruthy,
      _check_existing_wav_format, hmagic, _create_basic_wav_fallback,
      (show ¬b.length ≤ 1000 by omega), ho, hne]

/-- C10 (witness): the theorem at a concrete 1001-byte non-magic input. -/
theorem C10_witness :
    ¬((List.replicate 1001 1).take 4 = [82, 73, 70, 70] ∧
        ((List.replicate 1001 1).drop 8).take 4 = [87, 65, 86, 69]) ∧
      ((∀ sfDecode, (List.replicate 1001 1).length < 100 →
          convert_webm_to_wav sfDecode (List.replicate 1001 1) = none) ∧
        ((List.replicate 1001 1).length ≤ 1000 →
          convert_webm_to_wav sfNone (List.replicate 1001 1) = none) ∧
        (1000 < (List.replicate 1001 1).length →
          36 + (List.replicate 1001 1).length < 2 ^ 32 →
          ∃ out, convert_webm_to_wav sfNone (List.replicate 1001 1) =
            some out)) :=
  ⟨by decide, C10_acceptance_boundary (List.replicate 1001 1) (by decide)⟩

/-! ## C4 — chunk-loop transcript assembly -/

theorem chunkLoop_ok (f : String → List Char) (chunks : List String) :
    chunkLoop (fun c => Except.ok (f c)) chunks =
      (Except.ok ((chunks.map
          (fun c => if (f c).isEmpty then [] else f c ++ [' '])).flatten),
        chunks, chunks) := by
  induction chunks with
  | nil => simp [chunkLoop]
  | cons c rest ih => simp [chunkLoop, ih]

/-- C4 (counterexample): the claim says the final transcript is the
space-separated concatenation "with trailing whitespace trimmed", but
the source applies Python `strip()`, which also removes *leading*
whitespace: with a single chunk whose transcript is `" a"`, the claimed
value is `" a"` while the code returns `"a"`. -/
theorem C4_counterexample :
    inpLeadingWS.chunks = ["chunk_1.wav"] ∧
      inpLeadingWS.att "chunk_1.wav" = Except.ok [' ', 'a'] ∧
      pyrstrip ([' ', 'a'] ++ [' ']) = [' ', 'a'] ∧
      (process_long_audio inpLeadingWS).transcript = ['a'] ∧
      (['a'] : List Char) ≠ [' ', 'a'] := by
  refine ⟨rfl, rfl, by decide, ?_, by decide⟩
  decide

/-- C4 (amended): for every ordered chunk sequence with per-chunk
transcripts `f`, the final transcript is the concatenation, in chunk
order, of every non-empty per-chunk transcript each followed by a single
space, with leading and trailing whitespace trimmed (Python `strip()`);
empty transcripts contribute nothing, no chunk is reordered or retried
(each chunk is transcribed exactly once, in order), and each chunk file
is deleted after its transcription attempt regardless of outcome. -/
theorem C4_transcript_assembly (inp : OrchInput) (f : String → List Char)
    (hex : inp.fileExists = true) (hsz : inp.fileSize ≠ 0)
    (hatt : inp.att = fun c => Except.ok (f c)) (hch : inp.chunks ≠ []) :
    process_long_audio inp =
      { transcript := pystrip ((inp.chunks.map
            (fun c => if (f c).isEmpty then [] else f c ++ [' '])).flatten)
        attCalls := inp.chunks
        splitCalls := 1
        cleaned := inp.chunks } := by
  have hne : inp.chunks.isEmpty = false := by
    cases h : inp.chunks with
    | nil => exact absurd h hch
    | cons a l => rfl
  unfold process_long_audio process_body
  rw [hatt, chunkLoop_ok f inp.chunks]
  simp [hex, hsz, hne]

/-- C4 (witness): the amended theorem at a two-chunk input where the
first chunk transcribes to `"hi"` and the second to nothing. -/
theorem C4_witness :
    inpTwoChunks.fileExists = true ∧ inpTwoChunks.fileSize ≠ 0 ∧
      inpTwoChunks.chunks ≠ [] ∧
      process_long_audio inpTwoChunks =
        { transcript := ['h', 'i']
          attCalls := ["chunk_1.wav", "chunk_2.wav"]
          splitCalls := 1
          cleaned := ["chunk_1.wav", "chunk_2.wav"] } := by
  refine ⟨rfl, by decide, by decide, ?_⟩
  rw [C4_transcript_assembly inpTwoChunks fEx rfl (by decide) rfl (by decide)]
  decide

/-! ## C5 — exceptions never propagate -/

/-- C5: `process_long_audio` is total (it returns a string for every
input), and whenever its body raises, the top-level handler converts the
exception into the empty-string result: no exception reaches the
caller. -/
theorem C5_exception_to_empty (inp : OrchInput) (e : Unit)
    (h : (process_body inp).1 = Except.error e) :
    (process_long_audio inp).transcript = [] := by
  rcases hpb : process_body inp with ⟨r, calls, sc, cleaned⟩
  rw [hpb] at h
  simp only at h
  rw [process_long_audio, hpb, h]

/-- C5 (witness): the theorem at an input whose transcription call
raises. -/
theorem C5_witness :
    (process_body inpRaise).1 = Except.error () ∧
      (process_long_audio inpRaise).transcript = [] :=
  ⟨rfl, C5_exception_to_empty inpRaise () rfl⟩

/-! ## C6 — whole-file fallback on zero chunks -/

/-- C6 (counterexample): the claim says the whole-file transcription
result is returned *directly*, but the source returns
`transcript.strip() if transcript else ""`: with a whole-file transcript
of `" a "`, the code returns `"a"`, not `" a "`. -/
theorem C6_counterexample :
    inpWhole.chunks = [] ∧
      inpWhole.att inpWhole.inputFile = Except.ok [' ', 'a', ' '] ∧
      (process_long_audio inpWhole).attCalls = [inpWhole.inputFile] ∧
      (process_long_audio inpWhole).transcript = ['a'] ∧
      (['a'] : List Char) ≠ [' ', 'a', ' '] := by
  refine ⟨rfl, rfl, ?_, ?_, by decide⟩ <;> decide

/-- C6 (amended): when the chunker returns zero chunks (and the input
file exists and is non-empty), exactly one whole-file transcription call
is made, on the original input file, and its result is returned after
Python `strip()` (the empty string if the call raised). -/
theorem C6_whole_file_fallback (inp : OrchInput)
    (hex : inp.fileExists = true) (hsz : inp.fileSize ≠ 0)
    (hch : inp.chunks = []) :
    (process_long_audio inp).attCalls = [inp.inputFile] ∧
      (process_long_audio inp).splitCalls = 1 ∧
      (process_long_audio inp).transcript =
        (match inp.att inp.inputFile with
          | Except.ok t => pystrip t
          | Except.error _ => []) := by
  unfold process_long_audio process_body
  rcases hatt : inp.att inp.inputFile with e | t <;> simp [hex, hsz, hch, hatt]

/-- C6 (witness): the amended theorem at the concrete zero-chunk input
whose whole-file transcript is `" a "`. -/
theorem C6_witness :
    inpWhole.fileExists = true ∧ inpWhole.fileSize ≠ 0 ∧
      inpWhole.chunks = [] ∧
      (process_long_audio inpWhole).attCalls = [inpWhole.inputFile] ∧
      (process_long_audio inpWhole).splitCalls = 1 ∧
      (process_long_audio inpWhole).transcript = pystrip [' ', 'a', ' '] :=
  ⟨rfl, by decide, rfl,
    (C6_whole_file_fallback inpWhole rfl (by decide) rfl).1,
    (C6_whole_file_fallback inpWhole rfl (by decide) rfl).2.1,
    ((C6_whole_file_fallback inpWhole rfl (by decide) rfl).2.2).trans
      (by decide)⟩

/-! ## C7 — validation short-circuit -/

/-- C7: for a missing or zero-length input file, `process_long_audio`
returns the empty string without invoking the chunker or any external
transcription call (and deletes nothing). -/
theorem C7_validate_to_done (inp : OrchInput)
    (h : inp.fileExists = false ∨ inp.fileSize = 0) :
    process_long_audio inp =
      { transcript := [], attCalls := [], splitCalls := 0, cleaned := [] } := by
  unfold process_long_audio process_body
  rcases h with h | h <;> simp [h]

/-- C7 (witness): the theorem at a zero-length file. -/
theorem C7_witness :
    (inpEmptyFile.fileExists = false ∨ inpEmptyFile.fileSize = 0) ∧
      process_long_audio inpEmptyFile =
        { transcript := [], attCalls := [], splitCalls := 0, cleaned := [] } :=
  ⟨Or.inr rfl, C7_validate_to_done inpEmptyFile (Or.inr rfl)⟩

/-! ## C8, C9 — silence detection -/

theorem length_toInt16 : ∀ b : List ℕ, (toInt16 b).length = b.length / 2
  | [] => by simp [toInt16]
  | [x] => by simp [toInt16]
  | lo :: hi :: rest => by
      have ih := length_toInt16 rest
      simp [toInt16, ih]
      omega

theorem toInt16_zero : ∀ b : List ℕ, (∀ x ∈ b, x = 0) →
    ∀ s ∈ toInt16 b, s = (0 : ℤ)
  | [] => by simp [toInt16]
  | [x] => by simp [toInt16]
  | lo :: hi :: rest => by
      intro h s hs
      have hlo : lo = 0 := h lo (by simp)
      have hhi : hi = 0 := h hi (by simp)
      subst hlo; subst hhi
      simp [toInt16] at hs
      rcases hs with hs | hs
      · simp [hs]
      · exact toInt16_zero rest (fun x hx => h x (by simp [hx])) s hs

theorem meanSq_zero (b : List ℕ) (h : ∀ x ∈ b, x = 0) : meanSq b = 0 := by
  have hsum : (List.map (fun s : ℤ => ((s : ℚ) / 32768) ^ 2) (toInt16 b)).sum
      = 0 := by
    apply List.sum_eq_zero
    intro x hx
    obtain ⟨s, hs, rfl⟩ := List.mem_map.mp hx
    rw [toInt16_zero b h s hs]
    norm_num
  simp [meanSq, hsum]

/-- Over the rationals, the source's `sqrt(meanSq) < threshold` test is
`0 < threshold ∧ meanSq < threshold ^ 2`. -/
theorem sqrt_lt_rat_iff (m t : ℚ) :
    Real.sqrt (m : ℝ) < (t : ℝ) ↔ (0 < t ∧ m < t ^ 2) := by
  by_cases ht : 0 < t
  · have ht' : (0 : ℝ) < (t : ℝ) := by exact_mod_cast ht
    rw [Real.sqrt_lt' ht']
    constructor
    · intro h
      exact ⟨ht, by exact_mod_cast h⟩
    · rintro ⟨-, h⟩
      exact_mod_cast h
  · constructor
    · intro h
      have hge : (0 : ℝ) ≤ Real.sqrt (m : ℝ) := Real.sqrt_nonneg _
      have hle : (t : ℝ) ≤ 0 := by exact_mod_cast not_lt.mp ht
      exact absurd h (not_lt.mpr (le_trans hle hge))
    · rintro ⟨h0, -⟩
      exact absurd h0 ht

/-- C8: in the no-decoder fallback, any input shorter than 1000 bytes is
declared silent immediately; a longer (sample-aligned, i.e. even-length)
input is declared silent exactly when the RMS of the samples normalized
by 32768 is strictly below the threshold; in particular an all-zero
buffer of length at least 1000 is silent for every positive threshold. -/
theorem C8_silence_fallback (b : List ℕ) (t : ℚ) :
    (b.length < 1000 → _detect_silence_fallback b t = some true) ∧
      (1000 ≤ b.length → b.length % 2 = 0 →
        (_detect_silence_fallback b t = some true ↔
          Real.sqrt ((meanSq b : ℚ) : ℝ) < (t : ℝ))) ∧
      ((∀ x ∈ b, x = 0) → 1000 ≤ b.length → b.length % 2 = 0 → 0 < t →
        _detect_silence_fallback b t = some true) := by
  refine ⟨?_, ?_, ?_⟩
  · intro h
    simp [_detect_silence_fallback, h]
  · intro h1 h2
    have hnz : ¬(toInt16 b).length = 0 := by
      rw [length_toInt16]
      omega
    rw [sqrt_lt_rat_iff]
    simp [_detect_silence_fallback, (show ¬b.length < 1000 by omega), h2, hnz]
  · intro hz h1 h2 ht
    have hnz : ¬(toInt16 b).length = 0 := by
      rw [length_toInt16]
      omega
    have hm : meanSq b = 0 := meanSq_zero b hz
    simp [_detect_silence_fallback, (show ¬b.length < 1000 by omega), h2, hnz,
      hm, ht]

/-- C8 (witness): the all-zero 1000-byte buffer with threshold `1/10`. -/
theorem C8_witness :
    (∀ x ∈ List.replicate 1000 (0 : ℕ), x = 0) ∧
      1000 ≤ (List.replicate 1000 (0 : ℕ)).length ∧
      (List.replicate 1000 (0 : ℕ)).length % 2 = 0 ∧
      (0 : ℚ) < 1 / 10 ∧
      _detect_silence_fallback (List.replicate 1000 0) (1 / 10) = some true :=
  ⟨fun x hx => List.eq_of_mem_replicate hx, by norm_num, by norm_num,
    by norm_num,
    (C8_silence_fallback (List.replicate 1000 0) (1 / 10)).2.2
      (fun x hx => List.eq_of_mem_replicate hx) (by norm_num) (by norm_num)
      (by norm_num)⟩

/-- C9: `detect_silence` is total — for every oracle, byte input and
threshold it returns a boolean, never an error — and in the no-decoder
path an input of length at least 1000 with an odd byte count does not
fault but yields `false` via the fail-open exception handler. -/
theorem C9_detect_silence_total
    (sfPath : Option (List ℕ → ℚ → Except Unit Bool)) (b : List ℕ) (t : ℚ) :
    (∃ r : Bool, detect_silence sfPath b t = Except.ok r) ∧
      (1000 ≤ b.length → b.length % 2 = 1 →
        detect_silence none b t = Except.ok false) := by
  constructor
  · cases sfPath with
    | some f =>
        rcases h : f b t with e | r
        · exact ⟨false, by simp [detect_silence, h]⟩
        · exact ⟨r, by simp [detect_silence, h]⟩
    | none =>
        rcases h : _detect_silence_fallback b t with - | bb
        · exact ⟨false, by simp [detect_silence, h]⟩
        · exact ⟨bb, by simp [detect_silence, h]⟩
  · intro h1 h2
    simp [detect_silence, _detect_silence_fallback,
      (show ¬b.length < 1000 by omega), h2]

/-- C9 (witness): the odd-length all-zero 1001-byte buffer. -/
theorem C9_witness :
    1000 ≤ (List.replicate 1001 (0 : ℕ)).length ∧
      (List.replicate 1001 (0 : ℕ)).length % 2 = 1 ∧
      detect_silence none (List.replicate 1001 0) (1 / 10) =
        Except.ok false :=
  ⟨by norm_num, by norm_num,
    (C9_detect_silence_total none (List.replicate 1001 0) (1 / 10)).2
      (by norm_num) (by norm_num)⟩

/-! ## C1 — the chunker -/

theorem ceil_div_succ (a b : ℕ) (hb : 0 < b) (ha : 0 < a) :
    (a + b - 1) / b = (a - b + b - 1) / b + 1 := by
  rcases le_or_lt a b with h | h
  · have e0 : a - b = 0 := by omega
    rw [e0, show a + b - 1 = (a - 1) + b by omega, Nat.add_div_right _ hb,
      Nat.div_eq_of_lt (by omega), Nat.div_eq_of_lt (by omega)]
  · rw [show a + b - 1 = (a - 1) + b by omega, Nat.add_div_right _ hb,
      show a - b + b - 1 = a - 1 by omega]

theorem nat_ceil_cast_div (n m : ℕ) (hm : 0 < m) :
    ⌈(n : ℚ) / (m : ℚ)⌉₊ = (n + m - 1) / m := by
  have hm' : (0 : ℚ) < (m : ℚ) := by exact_mod_cast hm
  apply le_antisymm
  · rw [Nat.ceil_le, div_le_iff₀ hm']
    have hdm := Nat.div_add_mod (n + m - 1) m
    have hmod := Nat.mod_lt (n + m - 1) hm
    have hcomm : m * ((n + m - 1) / m) = (n + m - 1) / m * m :=
      Nat.mul_comm _ _
    have hle : n ≤ (n + m - 1) / m * m := by omega
    exact_mod_cast hle
  · rcases Nat.eq_zero_or_pos n with h0 | h0
    · subst h0
      have hz : (m - 1) / m = 0 := Nat.div_eq_of_lt (by omega)
      simp [hz]
    · have hq : (n + m - 1) / m = (n - 1) / m + 1 := by
        rw [show n + m - 1 = (n - 1) + m by omega, Nat.add_div_right _ hm]
      rw [hq]
      have hlt : ((n - 1) / m : ℕ) < ⌈(n : ℚ) / (m : ℚ)⌉₊ := by
        rw [Nat.lt_ceil, lt_div_iff₀ hm']
        have h1 : (n - 1) / m * m ≤ n - 1 := Nat.div_mul_le_self _ _
        have h2 : (n - 1) / m * m < n := by omega
        exact_mod_cast h2
      omega

theorem split_audio_loop_eq (p : WaveParams) (c : ℕ) (hr : 0 < p.framerate)
    (hc : 0 < c) :
    ∀ (k s i : ℕ),
      (p.nframes - s * p.framerate + c * p.framerate - 1) /
          (c * p.framerate) = k →
      split_audio_loop p c hr hc s i =
        (List.range k).map (fun j =>
          _create_audio_chunk p (((s + c * j : ℕ) : ℚ))
            (min (((s + c * j + c : ℕ) : ℚ))
              ((p.nframes : ℚ) / (p.framerate : ℚ)))
            (i + j)) := by
  intro k
  induction k with
  | zero =>
    intro s i hk
    have hb : 0 < c * p.framerate := Nat.mul_pos hc hr
    have hle : p.nframes ≤ s * p.framerate := by
      by_contra hlt
      have h1 : 1 ≤ (p.nframes - s * p.framerate + c * p.framerate - 1) /
          (c * p.framerate) := by
        rw [Nat.le_div_iff_mul_le hb]
        omega
      omega
    have hcond : ¬((s : ℚ) < (p.nframes : ℚ) / (p.framerate : ℚ)) := by
      rw [not_lt,
        div_le_iff₀ (show (0 : ℚ) < (p.framerate : ℚ) by exact_mod_cast hr)]
      exact_mod_cast hle
    rw [split_audio_loop, dif_neg hcond]
    simp
  | succ m ih =>
    intro s i hk
    have hb : 0 < c * p.framerate := Nat.mul_pos hc hr
    have hgt : s * p.framerate < p.nframes := by
      by_contra hge
      have e0 : p.nframes - s * p.framerate = 0 := by omega
      rw [e0] at hk
      have hz : (0 + c * p.framerate - 1) / (c * p.framerate) = 0 :=
        Nat.div_eq_of_lt (by omega)
      omega
    have hcond : (s : ℚ) < (p.nframes : ℚ) / (p.framerate : ℚ) := by
      rw [lt_div_iff₀ (show (0 : ℚ) < (p.framerate : ℚ) by exact_mod_cast hr)]
      exact_mod_cast hgt
    have hmul : (s + c) * p.framerate = s * p.framerate + c * p.framerate :=
      Nat.add_mul s c p.framerate
    have hk' : (p.nframes - (s + c) * p.framerate + c * p.framerate - 1) /
        (c * p.framerate) = m := by
      have hstep := ceil_div_succ (p.nframes - s * p.framerate)
        (c * p.framerate) hb (by omega)
      have e1 : p.nframes - s * p.framerate - c * p.framerate =
          p.nframes - (s + c) * p.framerate := by omega
      rw [e1] at hstep
      omega
    rw [split_audio_loop, dif_pos hcond, ih (s + c) (i + 1) hk']
    rw [List.range_succ_eq_map, List.map_cons, List.map_map]
    congr 1
    · push_cast
      norm_num
    · apply List.map_congr_left
      intro j hj
      simp only [Function.comp_apply, Nat.succ_eq_add_one]
      have e1 : s + c + c * j = s + c * (j + 1) := by ring
      have e2 : s + c + c * j + c = s + c * (j + 1) + c := by ring
      have e3 : i + 1 + j = i + (j + 1) := by ring
      rw [e2, e1, e3]

/-- C1: `split_audio` with the default 30-second chunk length on a file
of duration `D = nframes / framerate` produces `⌈D / 30⌉` chunks in
ascending chronological order (1-based indices `1..N` in list order);
chunk `i` covers the frame range `[30*(i-1)*rate, min(30*i*rate, nframes))`
— the image of the time window `[30*(i-1), min(30*i, D))` under
`frame = round(time * rate)`, all these time-to-frame products being
exact integers — each chunk inherits the parent's channel count, sample
width and frame rate, and the chunk frame ranges tile `[0, nframes)`
with no gaps or overlaps. -/
theorem C1_split_audio_chunks (p : WaveParams) (hr : 0 < p.framerate) :
    (split_audio p 30).length =
        ⌈(p.nframes : ℚ) / (p.framerate : ℚ) / 30⌉₊ ∧
      (∀ j (hj : j < (split_audio p 30).length),
        (split_audio p 30).get ⟨j, hj⟩ =
          { nchannels := p.nchannels
            sampwidth := p.sampwidth
            framerate := p.framerate
            startFrame := 30 * j * p.framerate
            endFrame := min (30 * (j + 1) * p.framerate) p.nframes
            index := j + 1 }) ∧
      (∀ j (hj : j + 1 < (split_audio p 30).length),
        ((split_audio p 30).get ⟨j, Nat.lt_of_succ_lt hj⟩).endFrame =
          ((split_audio p 30).get ⟨j + 1, hj⟩).startFrame) ∧
      (∀ h0 : 0 < (split_audio p 30).length,
        ((split_audio p 30).get ⟨0, h0⟩).startFrame = 0 ∧
          ((split_audio p 30).get
            ⟨(split_audio p 30).length - 1, by omega⟩).endFrame =
            p.nframes) := by
  have h30r : 0 < 30 * p.framerate := by omega
  have hfr0 : (0 : ℚ) < (p.framerate : ℚ) := by exact_mod_cast hr
  have hsplit : split_audio p 30 =
      (List.range ((p.nframes + 30 * p.framerate - 1) /
        (30 * p.framerate))).map
        (fun j => _create_audio_chunk p ((0 + 30 * j : ℕ) : ℚ)
          (min ((0 + 30 * j + 30 : ℕ) : ℚ)
            ((p.nframes : ℚ) / (p.framerate : ℚ))) (1 + j)) := by
    rw [split_audio, dif_pos ⟨hr, by norm_num⟩]
    apply split_audio_loop_eq
    simp
  have hLen : (split_audio p 30).length =
      (p.nframes + 30 * p.framerate - 1) / (30 * p.framerate) := by
    rw [hsplit, List.length_map, List.length_range]
  have hElem : ∀ j (hj : j < (split_audio p 30).length),
      (split_audio p 30).get ⟨j, hj⟩ =
        { nchannels := p.nchannels
          sampwidth := p.sampwidth
          framerate := p.framerate
          startFrame := 30 * j * p.framerate
          endFrame := min (30 * (j + 1) * p.framerate) p.nframes
          index := j + 1 } := by
    intro j hj
    have hstart : (⌊((0 + 30 * j : ℕ) : ℚ) * (p.framerate : ℚ)⌋).toNat =
        30 * j * p.framerate := by
      have e : ((0 + 30 * j : ℕ) : ℚ) * (p.framerate : ℚ) =
          ((30 * j * p.framerate : ℕ) : ℚ) := by
        push_cast
        ring
      rw [e, Int.floor_natCast, Int.toNat_natCast]
    have hend : (⌊min ((0 + 30 * j + 30 : ℕ) : ℚ)
        ((p.nframes : ℚ) / (p.framerate : ℚ)) * (p.framerate : ℚ)⌋).toNat =
        min (30 * (j + 1) * p.framerate) p.nframes := by
      rw [min_mul_of_nonneg _ _ (le_of_lt hfr0),
        div_mul_cancel₀ _ (ne_of_gt hfr0)]
      have e : ((0 + 30 * j + 30 : ℕ) : ℚ) * (p.framerate : ℚ) =
          ((30 * (j + 1) * p.framerate : ℕ) : ℚ) := by
        push_cast
        ring
      rw [e, ← Nat.cast_min, Int.floor_natCast, Int.toNat_natCast]
    rw [List.get_eq_getElem]
    simp only [hsplit, List.getElem_map, List.getElem_range,
      _create_audio_chunk]
    rw [hstart, hend, Nat.add_comm 1 j]
  refine ⟨?_, hElem, ?_, ?_⟩
  · rw [hLen, div_div]
    have h30 : ((30 * p.framerate : ℕ) : ℚ) = (p.framerate : ℚ) * 30 := by
      push_cast
      ring
    rw [← h30, nat_ceil_cast_div _ _ h30r]
  · intro j hj
    rw [hElem j (Nat.lt_of_succ_lt hj), hElem (j + 1) hj]
    show min (30 * (j + 1) * p.framerate) p.nframes =
      30 * (j + 1) * p.framerate
    apply min_eq_left
    rw [hLen] at hj
    have hdm := Nat.div_add_mod (p.nframes + 30 * p.framerate - 1)
      (30 * p.framerate)
    have hmod := Nat.mod_lt (p.nframes + 30 * p.framerate - 1) h30r
    have h1 : (j + 1) * (30 * p.framerate) ≤
        ((p.nframes + 30 * p.framerate - 1) / (30 * p.framerate) - 1) *
          (30 * p.framerate) :=
      Nat.mul_le_mul_right _ (by omega)
    have h2 : ((p.nframes + 30 * p.framerate - 1) / (30 * p.framerate) - 1) *
        (30 * p.framerate) =
        (p.nframes + 30 * p.framerate - 1) / (30 * p.framerate) *
          (30 * p.framerate) - 1 * (30 * p.framerate) := by
      rw [Nat.sub_mul]
    have h3 : 30 * (j + 1) * p.framerate = (j + 1) * (30 * p.framerate) := by
      ring
    have h4 : 30 * p.framerate *
        ((p.nframes + 30 * p.framerate - 1) / (30 * p.framerate)) =
        (p.nframes + 30 * p.framerate - 1) / (30 * p.framerate) *
          (30 * p.framerate) :=
      Nat.mul_comm _ _
    omega
  · intro h0
    constructor
    · rw [hElem 0 h0]
      show 30 * 0 * p.framerate = 0
      ring
    · simp only [hElem]
      show min (30 * ((split_audio p 30).length - 1 + 1) * p.framerate)
        p.nframes = p.nframes
      rw [show (split_audio p 30).length - 1 + 1 =
        (split_audio p 30).length by omega, hLen]
      apply min_eq_right
      have hdm := Nat.div_add_mod (p.nframes + 30 * p.framerate - 1)
        (30 * p.framerate)
      have hmod := Nat.mod_lt (p.nframes + 30 * p.framerate - 1) h30r
      have h5 : 30 * ((p.nframes + 30 * p.framerate - 1) /
          (30 * p.framerate)) * p.framerate =
          30 * p.framerate *
            ((p.nframes + 30 * p.framerate - 1) / (30 * p.framerate)) := by
        ring
      omega

/-- C1 (witness): the theorem at a 2-channel, frame-rate-8000 parent with
520000 frames (65 seconds, hence 3 chunks). -/
theorem C1_witness :
    0 < pEx.framerate ∧
      ((split_audio pEx 30).length =
          ⌈(pEx.nframes : ℚ) / (pEx.framerate : ℚ) / 30⌉₊ ∧
        (∀ j (hj : j < (split_audio pEx 30).length),
          (split_audio pEx 30).get ⟨j, hj⟩ =
            { nchannels := pEx.nchannels
              sampwidth := pEx.sampwidth
              framerate := pEx.framerate
              startFrame := 30 * j * pEx.framerate
              endFrame := min (30 * (j + 1) * pEx.framerate) pEx.nframes
              index := j + 1 }) ∧
        (∀ j (hj : j + 1 < (split_audio pEx 30).length),
          ((split_audio pEx 30).get ⟨j, Nat.lt_of_succ_lt hj⟩).endFrame =
            ((split_audio pEx 30).get ⟨j + 1, hj⟩).startFrame) ∧
        (∀ h0 : 0 < (split_audio pEx 30).length,
          ((split_audio pEx 30).get ⟨0, h0⟩).startFrame = 0 ∧
            ((split_audio pEx 30).get
              ⟨(split_audio pEx 30).length - 1, by omega⟩).endFrame =
              pEx.nframes)) :=
  ⟨by norm_num [pEx], C1_split_audio_chunks pEx (by norm_num [pEx])⟩

end FinTalk
